import Mathlib

/-!
Verification development for the TigerNet directory scraper (`scrape.py`).

The pure computational core of the scraper is embedded shallowly:

* strings are `List Char`; the Python string operations used by the code
  (`str.lower`, `str.strip`, `str.replace`, `str.split`) are modelled
  character by character (ASCII range, which is all the scraped data uses);
* the three e-mail regular expressions, the LinkedIn regular expression and
  the two inline patterns (`Class of (\d{4})` and the two-digit class-year
  suffix) are modelled by an executable backtracking matcher whose
  alternative order and greediness follow the Python `re` engine;
* the Selenium document handle is a record `Doc` of the query results the
  code reads from the browser (element texts, anchor hrefs, raw page
  source, and whether the bounded wait for the profile marker timed out);
* the SQLite table `alumni` with its UNIQUE `profile_url` column is a list
  of rows together with the connection state; a duplicate INSERT raises
  `IntegrityError`, which `write_row` turns into a `false` return.
-/

/- ## Python string primitives -/

/-- Python `str.lower` on one character, ASCII range (A-Z mapped to a-z). -/
def pyLowerChar (c : Char) : Char :=
  if 65 ≤ c.toNat ∧ c.toNat ≤ 90 then Char.ofNat (c.toNat + 32) else c

/-- Python `str.lower` (ASCII range). -/
def pyLower (s : List Char) : List Char := s.map pyLowerChar

/-- Python whitespace for `str.strip` and the `\s` class (ASCII range). -/
def isPyWs (c : Char) : Bool :=
  c == ' ' || c == '\t' || c == '\n' || c == '\r' ||
    c == Char.ofNat 11 || c == Char.ofNat 12

/-- Python `str.strip()` with no argument: drop whitespace at both ends. -/
def pyStrip (s : List Char) : List Char :=
  ((s.dropWhile isPyWs).reverse.dropWhile isPyWs).reverse

/-- Step-bounded core of `pyReplace`; the bound `fuel = s.length` is enough
because every step consumes at least one character of `s`. -/
def pyReplaceAux (pat rep : List Char) : Nat → List Char → List Char
  | 0, s => s
  | fuel + 1, s =>
    match s with
    | [] => []
    | c :: cs =>
      if pat ≠ [] ∧ pat.isPrefixOf s then
        rep ++ pyReplaceAux pat rep fuel (s.drop pat.length)
      else
        c :: pyReplaceAux pat rep fuel cs

/-- Python `str.replace(pat, rep)`: replace every non-overlapping occurrence
of `pat`, scanning left to right. -/
def pyReplace (s pat rep : List Char) : List Char :=
  pyReplaceAux pat rep s.length s

/-- Python `s.split(sep)` for a one-character separator: `"" ↦ [""]`,
`"," ↦ ["", ""]`, and so on. -/
def pySplit : List Char → Char → List (List Char)
  | [], _ => [[]]
  | c :: cs, sep =>
    if c = sep then
      [] :: pySplit cs sep
    else
      match pySplit cs sep with
      | p :: ps => (c :: p) :: ps
      | [] => [[c]]

/-- The characters after the first occurrence of `sep`
(Python `s.split(sep, 1)[1]` when `sep` occurs in `s`). -/
def afterFirst (sep : Char) : List Char → List Char
  | [] => []
  | c :: cs => if c = sep then cs else afterFirst sep cs

/-- Python `s.rstrip(c)` for a single strip character. -/
def pyRstripChar (strip : Char) (s : List Char) : List Char :=
  ((s.reverse.dropWhile (· == strip))).reverse

/- ## Character classes of the regular expressions in the scraper -/

def isAsciiAlpha (c : Char) : Bool :=
  (65 ≤ c.toNat && c.toNat ≤ 90) || (97 ≤ c.toNat && c.toNat ≤ 122)

def isAsciiDigit (c : Char) : Bool :=
  48 ≤ c.toNat && c.toNat ≤ 57

/-- The class `[a-zA-Z0-9._%+-]` (local part of an address). -/
def isLocalChar (c : Char) : Bool :=
  isAsciiAlpha c || isAsciiDigit c || c == '.' || c == '_' ||
    c == '%' || c == '+' || c == '-'

/-- The class `[a-zA-Z0-9.-]` (domain part of an address). -/
def isDomainChar (c : Char) : Bool :=
  isAsciiAlpha c || isAsciiDigit c || c == '.' || c == '-'

/-- Python `\w` (ASCII range), used for the `\b` boundary tests. -/
def isWordChar (c : Char) : Bool :=
  isAsciiAlpha c || isAsciiDigit c || c == '_'

/- ## A small backtracking regular-expression engine

The engine mirrors the Python `re` backtracking semantics for the pattern
features the scraper uses: character classes, literals, concatenation,
prioritized alternation, and greedy `*` / `+` / `?` / `{2,}`.  `reM`
enumerates the possible remainders of the input after a match at the start
of the input, best (Python-first) alternative first. -/

inductive RE where
  | eps : RE
  | cls (p : Char → Bool) : RE
  | seq (a b : RE) : RE
  | alt (a b : RE) : RE
  | star (a : RE) : RE

/-- Greedy iteration of a matching function: longer repetition sequences are
tried before shorter ones, and the zero-repetition case comes last.  Every
starred sub-pattern of the scraper consumes at least one character, so the
guard `t.length < s.length` never discards a Python-reachable path and the
bound `fuel = s.length + 1` is never exhausted. -/
def starIter (matchOne : List Char → (List Char → List (List Char)) → List (List Char)) :
    Nat → List Char → (List Char → List (List Char)) → List (List Char)
  | 0, s, k => k s
  | fuel + 1, s, k =>
    matchOne s (fun t => if t.length < s.length then starIter matchOne fuel t k else []) ++ k s

/-- Backtracking matcher in continuation-passing style: `reM r s k` returns
the concatenation, in Python priority order, of `k t` over all remainders
`t` of matches of `r` against a prefix of `s`. -/
def reM : RE → List Char → (List Char → List (List Char)) → List (List Char)
  | RE.eps, s, k => k s
  | RE.cls p, s, k =>
    match s with
    | [] => []
    | c :: cs => if p c then k cs else []
  | RE.seq a b, s, k => reM a s (fun t => reM b t k)
  | RE.alt a b, s, k => reM a s k ++ reM b s k
  | RE.star a, s, k => starIter (reM a) (s.length + 1) s k

/-- All remainders of matches of `r` at the start of `s`, best first. -/
def reMatchAll (r : RE) (s : List Char) : List (List Char) :=
  reM r s (fun t => [t])

/-- Python `re.search`: leftmost match position, Python-priority match at
that position; returns the matched text and the remainder after it. -/
def reSearch (r : RE) : List Char → Option (List Char × List Char)
  | [] =>
    match reMatchAll r [] with
    | t :: _ => some ([], t)
    | [] => none
  | c :: cs =>
    match reMatchAll r (c :: cs) with
    | t :: _ => some ((c :: cs).take ((c :: cs).length - t.length), t)
    | [] => reSearch r cs

/-- Step-bounded core of `reFindall`; every match of the patterns of the scraper
consumes at least one character, so `fuel = s.length + 1` is enough. -/
def reFindallAux (r : RE) : Nat → List Char → List (List Char)
  | 0, _ => []
  | fuel + 1, s =>
    match reSearch r s with
    | none => []
    | some (m, rest) =>
      m :: (if rest.length < s.length then reFindallAux r fuel rest else [])

/-- Python `re.findall` (no capture groups): non-overlapping matches,
scanning left to right. -/
def reFindall (r : RE) (s : List Char) : List (List Char) :=
  reFindallAux r (s.length + 1) s

/-- Greedy `r+`. -/
def rePlus (r : RE) : RE := RE.seq r (RE.star r)

/-- Greedy `r{2,}`. -/
def reRep2Plus (r : RE) : RE := RE.seq r (RE.seq r (RE.star r))

/-- Greedy `r?` (the present alternative is preferred). -/
def reOpt (r : RE) : RE := RE.alt r RE.eps

/-- A literal string. -/
def reLit (s : List Char) : RE :=
  s.foldr (fun c r => RE.seq (RE.cls (fun x => x == c)) r) RE.eps

/-- A literal string under `re.IGNORECASE`. -/
def reLitCI (s : List Char) : RE :=
  s.foldr (fun c r => RE.seq (RE.cls (fun x => pyLowerChar x == pyLowerChar c)) r) RE.eps

/- ## The compiled patterns of the scraper (scrape.py lines 53-63) -/

/-- `EMAIL_PATTERNS[0]`: `[a-zA-Z0-9._%+-]+@[a-zA-Z0-9.-]+\.[a-zA-Z]{2,}`. -/
def EMAIL_PATTERN_1 : RE :=
  RE.seq (rePlus (RE.cls isLocalChar))
    (RE.seq (RE.cls (· == '@'))
      (RE.seq (rePlus (RE.cls isDomainChar))
        (RE.seq (RE.cls (· == '.'))
          (reRep2Plus (RE.cls isAsciiAlpha)))))

/-- `EMAIL_PATTERNS[1]`: `[a-zA-Z0-9._%+-]+[\s@]+[a-zA-Z0-9.-]+[\s.]+[a-zA-Z]{2,}`. -/
def EMAIL_PATTERN_2 : RE :=
  RE.seq (rePlus (RE.cls isLocalChar))
    (RE.seq (rePlus (RE.cls (fun c => isPyWs c || c == '@')))
      (RE.seq (rePlus (RE.cls isDomainChar))
        (RE.seq (rePlus (RE.cls (fun c => isPyWs c || c == '.')))
          (reRep2Plus (RE.cls isAsciiAlpha)))))

/-- `EMAIL_PATTERNS[2]`:
`[a-zA-Z0-9._%+-]+(?:\s*(?:at|@|&#64;)\s*)[a-zA-Z0-9.-]+(?:\s*(?:dot|\.|\[dot\])\s*)[a-zA-Z]{2,}`
(with `re.IGNORECASE` applied to the word literals). -/
def EMAIL_PATTERN_3 : RE :=
  RE.seq (rePlus (RE.cls isLocalChar))
    (RE.seq (RE.star (RE.cls isPyWs))
      (RE.seq (RE.alt (reLitCI "at".data) (RE.alt (reLit "@".data) (reLit "&#64;".data)))
        (RE.seq (RE.star (RE.cls isPyWs))
          (RE.seq (rePlus (RE.cls isDomainChar))
            (RE.seq (RE.star (RE.cls isPyWs))
              (RE.seq (RE.alt (reLitCI "dot".data) (RE.alt (reLit ".".data) (reLitCI "[dot]".data)))
                (RE.seq (RE.star (RE.cls isPyWs))
                  (reRep2Plus (RE.cls isAsciiAlpha)))))))))

/-- The ordered pattern list `EMAIL_PATTERNS`. -/
def EMAIL_PATTERNS : List RE := [EMAIL_PATTERN_1, EMAIL_PATTERN_2, EMAIL_PATTERN_3]

/-- `LINKEDIN_PATTERN`:
`https?://(?:www\.)?linkedin\.com/in/[a-zA-Z0-9_-]+/?` with `re.IGNORECASE`. -/
def LINKEDIN_PATTERN : RE :=
  RE.seq (reLitCI "http".data)
    (RE.seq (reOpt (RE.cls (fun c => pyLowerChar c == 's')))
      (RE.seq (reLit "://".data)
        (RE.seq (reOpt (reLitCI "www.".data))
          (RE.seq (reLitCI "linkedin.com/in/".data)
            (RE.seq (rePlus (RE.cls (fun c => isAsciiAlpha c || isAsciiDigit c || c == '_' || c == '-')))
              (reOpt (reLit "/".data)))))))

/- ## Field extractors (scrape.py lines 188-257) -/

/-- The loop body of `extract_emails_from_blocks` for one anchor: clean the
href (`href.replace("mailto:", "").split("?", 1)[0].strip().lower()`) and
append it when it is non-empty and not seen yet.  The source keeps a `seen`
set next to the `ordered` list; the set always holds exactly the elements
of the list, so membership is checked on the list here. -/
def addEmail (ordered : List (List Char)) (href : List Char) : List (List Char) :=
  let email := pyLower (pyStrip ((pyReplace href "mailto:".data []).takeWhile (· ≠ '?')))
  if email ≠ [] ∧ email ∉ ordered then ordered ++ [email] else ordered

/-- The cleaning step of `addEmail` by itself. -/
def clean_href (href : List Char) : List Char :=
  pyLower (pyStrip ((pyReplace href "mailto:".data []).takeWhile (· ≠ '?')))

/-- `extract_emails_from_blocks(blocks)`: each block is modelled by the list
of `href` attribute values of its mailto anchors
(`get_attribute("href") or ""`). -/
def extract_emails_from_blocks (blocks : List (List (List Char))) : List (List Char) :=
  blocks.foldl (fun ordered block => block.foldl addEmail ordered) []

/-- The normalization applied to one regex match inside
`extract_emails_by_regex`:
`match.lower().replace(" at ", "@").replace("[at]", "@").replace(" dot ", ".").replace("[dot]", ".")`. -/
def clean_match (m : List Char) : List Char :=
  pyReplace
    (pyReplace
      (pyReplace
        (pyReplace (pyLower m) " at ".data "@".data)
        "[at]".data "@".data)
      " dot ".data ".".data)
    "[dot]".data ".".data

/-- `cleaned.split("@", 1)[1] if "@" in cleaned else ""`. -/
def domain_part (cleaned : List Char) : List Char :=
  if '@' ∈ cleaned then afterFirst '@' cleaned else []

/-- The loop body of `extract_emails_by_regex` for one match: accept the
cleaned match when it contains `@`, a `.` in the part after the first `@`,
and is not present in `found` yet. -/
def acceptMatch (found : List (List Char)) (m : List Char) : List (List Char) :=
  let cleaned := clean_match m
  if '@' ∈ cleaned ∧ '.' ∈ domain_part cleaned ∧ cleaned ∉ found then
    found ++ [cleaned]
  else found

/-- `extract_emails_by_regex(text)` (scrape.py lines 203-218). -/
def extract_emails_by_regex (text : List Char) : List (List Char) :=
  EMAIL_PATTERNS.foldl (fun found pat => (reFindall pat text).foldl acceptMatch found) []

/-- `extract_linkedin(page_source)` (scrape.py lines 221-226):
`LINKEDIN_PATTERN.search(...)`, then `.group(0).rstrip('/')`. -/
def extract_linkedin (page_source : List Char) : List Char :=
  match reSearch LINKEDIN_PATTERN page_source with
  | some (m, _) => pyRstripChar '/' m
  | none => []

/-- `parse_location(location)` (scrape.py lines 238-257). -/
def parse_location (location : List Char) : List Char × List Char :=
  if location = [] then ([], [])
  else
    let parts := (pySplit location ',').map pyStrip
    match parts with
    | city :: st :: _ => (city, st)
    | [city] => (city, [])
    | [] => ([], [])

/- ## Inline patterns of scrape_profile (scrape.py lines 455 and 463) -/

/-- The apostrophe character. -/
def apos : Char := Char.ofNat 39

/-- The search for the name-suffix pattern (apostrophe)(\d{2})(\b), returning
the two-digit value: at each
position, the pattern needs an apostrophe, two digits, and a word boundary
(end of string or a non-word character). -/
def findYearSuffix : List Char → Option Nat
  | [] => none
  | c :: cs =>
    if c = apos then
      match cs with
      | d1 :: d2 :: rest =>
        if isAsciiDigit d1 && isAsciiDigit d2 &&
            (match rest with | [] => true | r :: _ => !isWordChar r) then
          some ((d1.toNat - 48) * 10 + (d2.toNat - 48))
        else findYearSuffix cs
      | _ => findYearSuffix cs
    else findYearSuffix cs

/-- The match of `Class of (\d{4})` at the start of `s`, if any. -/
def matchClassOfAt (s : List Char) : Option (List Char) :=
  if "Class of ".data.isPrefixOf s then
    match s.drop 9 with
    | a :: b :: c :: d :: _ =>
      if isAsciiDigit a && isAsciiDigit b && isAsciiDigit c && isAsciiDigit d then
        some [a, b, c, d]
      else none
    | _ => none
  else none

/-- The leftmost match of the pattern `Class of (\d{4})` in `text`,
returning group 1. -/
def findClassOf : List Char → Option (List Char)
  | [] => none
  | c :: cs =>
    match matchClassOfAt (c :: cs) with
    | some y => some y
    | none => findClassOf cs

/-- Python `str(n)` for a natural number. -/
def natToStr (n : Nat) : List Char := (Nat.repr n).data

/- ## The profile document model and scrape_profile (scrape.py lines 330-549)

`Doc` records, field by field, the query results `scrape_profile` reads from
the rendered profile page: for each `find_elements` call the list of element
texts (`elem.text or ""`) or anchor `href` attributes it inspects, the raw
`page_source`, and whether the bounded `WebDriverWait` for the marker
element timed out.  Strategy-level `WebDriverException`s are swallowed by
the source and are modelled as the corresponding query returning its
results normally. -/

structure Doc where
  /-- The `WebDriverWait` for
  email-display, h1, or profile-name marker selector
  raised `TimeoutException`. -/
  timedOut : Bool
  /-- Element texts found per entry of `name_selectors`, in selector order. -/
  selectorTexts : List (List (List Char))
  /-- Text of the element after a `full name` label, if present. -/
  fullNameText : Option (List Char)
  /-- For each email display-attribute block, the `href`
  values of its `mailto:` anchors. -/
  emailBlocks : List (List (List Char))
  /-- `driver.page_source`. -/
  pageSource : List Char
  /-- Texts of the `Primary Class/Degree Year` value elements (method 1). -/
  classYearTexts1 : List (List Char)
  /-- Texts under links with `Primary_Class_Year` in the href (method 2). -/
  classYearTexts2 : List (List Char)
  /-- Texts of the elements following a `Cluster` label (method 3). -/
  clusterTexts : List (List Char)
  /-- Texts of the header `Location` value elements (method 1). -/
  locationTexts1 : List (List Char)
  /-- Texts of the contact-section `Location` value elements (method 2). -/
  locationTexts2 : List (List Char)
  /-- `href` values of anchors containing `linkedin.com/in/`. -/
  linkedinHrefs : List (List Char)
  /-- Texts of the experience-entry (`jcqcYi`) elements. -/
  jobTitleTexts : List (List Char)
  /-- Texts of the `Field/Specialty` value elements. -/
  industryTexts : List (List Char)

/-- The result dict initialised at the top of `scrape_profile`
(scrape.py lines 336-346). -/
structure ProfileResult where
  name : List Char
  email : List Char
  linkedin : List Char
  city : List Char
  state : List Char
  industry : List Char
  work_title : List Char
  firm_name : List Char
  class_year : List Char
deriving DecidableEq, Repr

/-- The initial `result` value: every field empty except the
`"(unknown)"` name placeholder. -/
def initResult : ProfileResult :=
  { name := "(unknown)".data
    email := []
    linkedin := []
    city := []
    state := []
    industry := []
    work_title := []
    firm_name := []
    class_year := [] }

/-- The boilerplate stoplist applied to name candidates. -/
def NAME_STOPLIST : List (List Char) :=
  ["princeton information".data, "contact".data, "experience".data, "education".data]

/-- The inner loop over the elements of one selector (scrape.py lines 377-384):
take the first stripped, non-empty text that is not stoplisted and not
already a candidate, then stop scanning this selector. -/
def scanElems (cands : List (List Char)) : List (List Char) → List (List Char)
  | [] => cands
  | t :: ts =>
    let text := pyStrip t
    if text ≠ [] ∧ pyLower text ∉ NAME_STOPLIST ∧ text ∉ cands then cands ++ [text]
    else scanElems cands ts

/-- The outer loop over `name_selectors` (scrape.py lines 375-386): stop at
the first selector that produced a candidate. -/
def scanSelectors (cands : List (List Char)) : List (List (List Char)) → List (List Char)
  | [] => cands
  | elems :: rest =>
    let cands2 := scanElems cands elems
    if cands2 ≠ [] then cands2 else scanSelectors cands2 rest

/-- `name_candidates` after the selector scan and the `full name` label
fallback (scrape.py lines 363-403). -/
def name_candidates (doc : Doc) : List (List Char) :=
  let cands := scanSelectors [] doc.selectorTexts
  if cands = [] then
    match doc.fullNameText with
    | some t =>
      let ft := pyStrip t
      if ft ≠ [] ∧ pyLower ft ∉ ["princeton information".data, "contact".data] then [ft]
      else []
    | none => []
  else cands

/-- `result["name"]` (scrape.py lines 405-406): the first candidate, or the
`"(unknown)"` placeholder when no candidate was found. -/
def extract_name (doc : Doc) : List Char :=
  match (name_candidates doc).head? with
  | some n => n
  | none => "(unknown)".data

/-- `result["email"]` (scrape.py lines 408-425): structured mailto blocks
first, regex scan of the cached page source only when the blocks yielded
nothing; outside include-all mode only the first e-mail is kept. -/
def email_of (doc : Doc) (include_all : Bool) : List Char :=
  let emails := extract_emails_from_blocks doc.emailBlocks
  let emails := if !include_all && emails ≠ [] then emails.take 1 else emails
  let emails :=
    if emails = [] then
      let es := extract_emails_by_regex doc.pageSource
      if !include_all && es ≠ [] then es.take 1 else es
    else emails
  match emails.head? with
  | some e => e
  | none => []

/-- Class-year methods 1-3 (scrape.py lines 428-458): structured label
value, then the `Primary_Class_Year` link value, then the first
`Class of YYYY` phrase in a `Cluster` text block. -/
def class_year_123 (doc : Doc) : List Char :=
  let cy1 :=
    match doc.classYearTexts1.head? with
    | some t => pyStrip t
    | none => []
  let cy2 :=
    if cy1 = [] then
      match doc.classYearTexts2.head? with
      | some t => pyStrip t
      | none => []
    else cy1
  if cy2 = [] then
    match doc.clusterTexts.findSome? findClassOf with
    | some y => y
    | none => []
  else cy2

/-- `result["class_year"]` including method 4 (scrape.py lines 460-468):
when methods 1-3 produced nothing and the name is non-empty, expand a
two-digit year suffix of the name with pivot 50. -/
def class_year_of (doc : Doc) : List Char :=
  let cy := class_year_123 doc
  if cy = [] ∧ extract_name doc ≠ [] then
    match findYearSuffix (extract_name doc) with
    | some v => if 50 ≤ v then natToStr (1900 + v) else natToStr (2000 + v)
    | none => cy
  else cy

/-- The raw `location` string (scrape.py lines 472-492): header label value
first, contact-section value as fallback. -/
def location_of (doc : Doc) : List Char :=
  let loc :=
    match doc.locationTexts1.head? with
    | some t => pyStrip t
    | none => []
  if loc = [] then
    match doc.locationTexts2.head? with
    | some t => pyStrip t
    | none => []
  else loc

/-- `result["city"], result["state"]` (scrape.py lines 494-496). -/
def city_state_of (doc : Doc) : List Char × List Char :=
  if location_of doc ≠ [] then parse_location (location_of doc) else ([], [])

/-- `result["linkedin"]` (scrape.py lines 498-513): regex match against the
page source first; only when that is empty, the stripped `href` of the
first `linkedin.com/in/` anchor element. -/
def linkedin_of (doc : Doc) : List Char :=
  let lk := extract_linkedin doc.pageSource
  if lk = [] then
    match doc.linkedinHrefs.head? with
    | some h => pyStrip h
    | none => []
  else lk

/-- `result["work_title"], result["firm_name"]` (scrape.py lines 515-530). -/
def work_firm_of (doc : Doc) : List Char × List Char :=
  match doc.jobTitleTexts with
  | t1 :: t2 :: _ => (pyStrip t1, pyStrip t2)
  | [t1] => (pyStrip t1, [])
  | [] => ([], [])

/-- `result["industry"]` (scrape.py lines 532-541). -/
def industry_of (doc : Doc) : List Char :=
  match doc.industryTexts.head? with
  | some t => pyStrip t
  | none => []

/-- `scrape_profile(driver, url, include_all)` (scrape.py lines 330-549):
on a marker-wait timeout the initial result is returned unchanged;
otherwise each field is filled by its extraction chain. -/
def scrape_profile (doc : Doc) (include_all : Bool) : ProfileResult :=
  if doc.timedOut then initResult
  else
    { name := extract_name doc
      email := email_of doc include_all
      linkedin := linkedin_of doc
      city := (city_state_of doc).1
      state := (city_state_of doc).2
      industry := industry_of doc
      work_title := (work_firm_of doc).1
      firm_name := (work_firm_of doc).2
      class_year := class_year_of doc }

/- ## The resumable store: SQLiteWriter (scrape.py lines 70-144)

The `alumni` table is the list of its rows in insertion order; the UNIQUE
constraint on `profile_url` makes an INSERT with an already-present key
raise `sqlite3.IntegrityError` and store nothing.  `close` never clears
`self.conn`, and a `sqlite3.Connection` object stays truthy after being
closed, so a second `close()` reaches `self.conn.commit()` on a closed
connection, which raises `sqlite3.ProgrammingError`. -/

structure AlumniRow where
  profile_url : List Char
  name : List Char
  email : List Char
  linkedin : List Char
  city : List Char
  state : List Char
  industry : List Char
  work_title : List Char
  firm_name : List Char
  class_year : List Char
deriving DecidableEq, Repr

structure SQLiteWriter where
  rows : List AlumniRow
  row_count : Nat
  connClosed : Bool
deriving DecidableEq, Repr

/-- `SQLiteWriter.write_row` (scrape.py lines 114-127): INSERT the row;
on the UNIQUE-constraint `IntegrityError` for a duplicate `profile_url`,
store nothing and return `false`. -/
def write_row (w : SQLiteWriter) (r : AlumniRow) : SQLiteWriter × Bool :=
  if w.rows.any (fun x => x.profile_url == r.profile_url) then
    (w, false)
  else
    ({ w with rows := w.rows ++ [r], row_count := w.row_count + 1 }, true)

/-- `SQLiteWriter.is_scraped` (scrape.py lines 109-112). -/
def is_scraped (w : SQLiteWriter) (url : List Char) : Bool :=
  w.rows.any (fun x => x.profile_url == url)

/-- `SQLiteWriter.get_total_count` (scrape.py lines 129-132). -/
def get_total_count (w : SQLiteWriter) : Nat := w.rows.length

/-- The message of the `sqlite3.ProgrammingError` raised by operating on a
closed connection. -/
def CLOSED_ERR : List Char := "Cannot operate on a closed database.".data

/-- `SQLiteWriter.close` (scrape.py lines 134-138): `self.conn` is always
truthy, so `commit()` runs; on an already-closed connection it raises
`ProgrammingError`, otherwise the connection is committed and closed. -/
def close (w : SQLiteWriter) : Except (List Char) SQLiteWriter :=
  if w.connClosed then Except.error CLOSED_ERR
  else Except.ok { w with connClosed := true }

/- ## The crawl loop (scrape.py lines 606-721) -/

/-- The per-profile persistence decision inside the crawl loop
(scrape.py lines 663-686): the scraped record is handed to `write_row`
exactly when its primary email is non-empty (`if data["email"]:`); the
second component is `none` when the record was discarded and
`some inserted` when `write_row` ran. -/
def persistProfile (w : SQLiteWriter) (link : List Char) (data : ProfileResult) :
    SQLiteWriter × Option Bool :=
  if data.email ≠ [] then
    let res := write_row w
      { profile_url := link
        name := data.name
        email := data.email
        linkedin := data.linkedin
        city := data.city
        state := data.state
        industry := data.industry
        work_title := data.work_title
        firm_name := data.firm_name
        class_year := data.class_year }
    (res.1, some res.2)
  else (w, none)

/-- One listing page as the crawl loop sees it: the scraped data of the
new profile links discovered on it, and whether `click_next_page`
succeeds afterwards. -/
structure PageData where
  newLinks : List ProfileResult
  nextClickOk : Bool

/-- The page-advancing skeleton of the `while` loop of `scrape_directory`
(scrape.py lines 624-701), returning the page numbers of the listing pages
the loop processes.  The loop starts its own counter at `page = 1`, stops
when the session target is reached, when a page yields no profile links, or
when the Next click fails, and advances one page per iteration; the session
counter grows by one per inserted row, and the inner loop stops inserting
at the target. -/
def crawlLoop (target : Nat) : List PageData → Nat → Nat → List Nat
  | [], _, _ => []
  | pd :: rest, page, collected =>
    if target ≤ collected then []
    else
      page ::
        (if pd.newLinks = [] then []
         else
           let inserted := min (pd.newLinks.countP (fun d => !d.email.isEmpty)) (target - collected)
           if pd.nextClickOk then crawlLoop target rest (page + 1) (collected + inserted)
           else [])

/-- `scrape_directory` page traversal: the `START_PAGE` and `END_PAGE`
globals set from `--start-page` / `--end-page` are embedded as arguments,
and — exactly as in the source, which navigates to `build_url(page=1)` and
runs `page = 1; ... page += 1` without ever consulting either global (the
bound-honouring generator `iter_pages` is never called) — the loop ignores
both of them. -/
def scrape_directory_pages (START_PAGE : Nat) (END_PAGE : Option Nat)
    (target : Nat) (site : List PageData) : List Nat :=
  crawlLoop target site 1 0

/- ## Spec-side definition for the mailto cleaning (refinement comparison) -/

/-- The per-anchor cleaning as the specification words it: the `mailto:`
PREFIX removed (once, at the front only), the query suffix starting at the
first `?` dropped, surrounding whitespace stripped, the result
lower-cased.  Compare with `clean_href`, which embeds the source
call `href.replace("mailto:", "")` and removes every occurrence. -/
def spec_clean_href (href : List Char) : List Char :=
  let noPfx := if "mailto:".data.isPrefixOf href then href.drop 7 else href
  pyLower (pyStrip (noPfx.takeWhile (· ≠ '?')))

/-- Canonical order-preserving deduplication keeping the first occurrence
of each element not already in `seen`. -/
def dedup_first_seen (seen : List (List Char)) : List (List Char) → List (List Char)
  | [] => []
  | e :: es =>
    if e ∈ seen then dedup_first_seen seen es
    else e :: dedup_first_seen (e :: seen) es

/- ## Concrete fixtures used by witnesses and counterexamples -/

/-- A profile document whose marker wait timed out. -/
def docTimeout : Doc :=
  { timedOut := true
    selectorTexts := []
    fullNameText := none
    emailBlocks := []
    pageSource := []
    classYearTexts1 := []
    classYearTexts2 := []
    clusterTexts := []
    locationTexts1 := []
    locationTexts2 := []
    linkedinHrefs := []
    jobTitleTexts := []
    industryTexts := [] }

/-- A profile document whose page source contains no LinkedIn URL but whose
DOM has an anchor with a `linkedin.com/in/` href carrying a trailing
slash (for example a relative or script-inserted href that the raw-source
regex does not match). -/
def docSlash : Doc :=
  { docTimeout with
    timedOut := false
    linkedinHrefs := ["https://www.linkedin.com/in/jane-doe/".data] }

/-- A profile document whose page source carries a canonical LinkedIn URL. -/
def docLinked : Doc :=
  { docTimeout with
    timedOut := false
    pageSource := "see https://www.linkedin.com/in/jane-doe/ here".data }

/-- A profile document whose only class-year evidence is the two-digit
suffix `(apostrophe)97` inside the extracted name. -/
def doc97 : Doc :=
  { docTimeout with
    timedOut := false
    selectorTexts := [["Jennifer M. Abbondanza ".data ++ [apos, '9', '7']]] }

/-- Like `doc97` with the suffix `(apostrophe)04`. -/
def doc04 : Doc :=
  { docTimeout with
    timedOut := false
    selectorTexts := [["John Q. Public ".data ++ [apos, '0', '4']]] }

/-- An open writer over an empty table. -/
def emptyWriter : SQLiteWriter := { rows := [], row_count := 0, connClosed := false }

/-- A sample row. -/
def rowA : AlumniRow :=
  { profile_url := "https://tigernet.princeton.edu/users/1".data
    name := "A".data
    email := "a@x.co".data
    linkedin := []
    city := []
    state := []
    industry := []
    work_title := []
    firm_name := []
    class_year := [] }

/-- A different row with the same identity key as `rowA`. -/
def rowA2 : AlumniRow := { rowA with name := "A2".data, email := "a2@x.co".data }

/-- A scraped record whose only non-empty field is the primary email. -/
def emailOnlyData : ProfileResult :=
  { name := []
    email := "a@x.co".data
    linkedin := []
    city := []
    state := []
    industry := []
    work_title := []
    firm_name := []
    class_year := [] }

/-- A ten-page listing site: every page discovers one fresh profile with an
email, and the Next click always succeeds. -/
def tenPageSite : List PageData :=
  List.replicate 10 { newLinks := [emailOnlyData], nextClickOk := true }

/- ## Helper lemmas -/

theorem toNat_ofNat_of_lt {n : Nat} (h : n < 55296) : (Char.ofNat n).toNat = n := by
  rw [Char.ofNat, dif_pos (Or.inl h)]
  rfl

theorem pyLowerChar_not_upper (c : Char) :
    (pyLowerChar c).toNat < 65 ∨ 90 < (pyLowerChar c).toNat := by
  unfold pyLowerChar
  split
  · rename_i h
    rw [toNat_ofNat_of_lt (by omega)]
    omega
  · rename_i h
    omega

theorem pySplit_ne_nil (s : List Char) (sep : Char) : pySplit s sep ≠ [] := by
  cases s with
  | nil => simp [pySplit]
  | cons c cs =>
    unfold pySplit
    split
    · simp
    · split <;> simp

/- ## C7: location parsing -/

/-- C7: `parse_location` splits on commas and returns the first segment as
city and the second as region (both stripped); a single-segment string
yields that segment with an empty region; the empty string yields both
empty; and the three concrete examples of the specification hold. -/
theorem parse_location_comma_split :
    (∀ s : List Char, s ≠ [] →
      (parse_location s).1 = ((pySplit s ',').map pyStrip).headD [] ∧
      (parse_location s).2 = (((pySplit s ',').map pyStrip).tail).headD []) ∧
    parse_location [] = ([], []) ∧
    parse_location "Vienna, VA, United States".data = ("Vienna".data, "VA".data) ∧
    parse_location "New York, NY".data = ("New York".data, "NY".data) ∧
    parse_location "Remote".data = ("Remote".data, []) := by
  refine ⟨?_, by decide, by decide, by decide, by decide⟩
  intro s hs
  have h := pySplit_ne_nil s ','
  unfold parse_location
  rw [if_neg hs]
  cases hp : (pySplit s ',').map pyStrip with
  | nil =>
    exact absurd (List.map_eq_nil_iff.mp hp) h
  | cons p rest =>
    cases rest <;> simp

/-- Witness for `parse_location_comma_split` at a concrete input. -/
theorem parse_location_comma_split_witness :
    (parse_location "Remote".data).1 = "Remote".data ∧
    (parse_location "Remote".data).2 = [] := by
  have h := parse_location_comma_split.1 "Remote".data (by decide)
  exact ⟨h.1.trans (by decide), h.2.trans (by decide)⟩

/- ## C2: persistence decision of the crawl loop -/

/-- C2: the crawl loop hands the scraped record to the store exactly when
its primary email field is non-empty (even if every other field is empty),
and a record with an empty email leaves the store untouched. -/
theorem persist_iff_email_nonempty (w : SQLiteWriter) (link : List Char)
    (data : ProfileResult) :
    ((persistProfile w link data).2 ≠ none ↔ data.email ≠ []) ∧
    (data.email = [] → persistProfile w link data = (w, none)) := by
  by_cases h : data.email = [] <;> simp [persistProfile, h]

/-- Witness for `persist_iff_email_nonempty`: a record whose only non-empty
field is the email is handed to the store, and the same record with the
email blanked leaves the store untouched. -/
theorem persist_iff_email_nonempty_witness :
    (persistProfile emptyWriter "u".data emailOnlyData).2 ≠ none ∧
    persistProfile emptyWriter "u".data { emailOnlyData with email := [] } =
      (emptyWriter, none) := by
  constructor
  · exact (persist_iff_email_nonempty emptyWriter "u".data emailOnlyData).1.mpr (by decide)
  · exact (persist_iff_email_nonempty emptyWriter "u".data
      { emailOnlyData with email := [] }).2 rfl

/- ## C6: Close is not idempotent -/

/-- C6 counterexample: after one successful `close` of an open writer, a
second `close` call is not a no-op — it raises `ProgrammingError`
(modelled as the `Except.error` result), contradicting the claim that a
second Close does not raise. -/
theorem close_second_raises :
    close emptyWriter = Except.ok { emptyWriter with connClosed := true } ∧
    close { emptyWriter with connClosed := true } = Except.error CLOSED_ERR := by
  exact ⟨rfl, rfl⟩

/-- C6 amended: `close` on an open writer commits and closes the
connection without touching the stored rows; because `self.conn` is never
cleared and stays truthy, a second `close` reaches `commit()` on the
closed connection and raises `ProgrammingError`, again leaving the stored
rows unchanged.  (The program itself avoids the double close by clearing
the global writer reference after the first close.) -/
theorem close_once_then_error (w : SQLiteWriter) (h : w.connClosed = false) :
    close w = Except.ok { w with connClosed := true } ∧
    close { w with connClosed := true } = Except.error CLOSED_ERR ∧
    ({ w with connClosed := true } : SQLiteWriter).rows = w.rows := by
  refine ⟨?_, ?_, rfl⟩ <;> simp [close, h]

/-- Witness for `close_once_then_error` at a concrete open writer. -/
theorem close_once_then_error_witness :
    close emptyWriter = Except.ok { emptyWriter with connClosed := true } ∧
    close { emptyWriter with connClosed := true } = Except.error CLOSED_ERR ∧
    ({ emptyWriter with connClosed := true } : SQLiteWriter).rows = emptyWriter.rows := by
  exact close_once_then_error emptyWriter rfl

/- ## C4: timeout leaves the placeholder name -/

/-- C4 counterexample: on a marker-wait timeout the
`name` field is the `"(unknown)"` placeholder, not the empty string, so
not every field other than the identity key is empty. -/
theorem timeout_name_not_empty :
    (scrape_profile docTimeout true).name = "(unknown)".data ∧
    (scrape_profile docTimeout true).name ≠ [] := by
  exact ⟨rfl, by decide⟩

/-- C4 amended: on a marker-wait timeout `scrape_profile` returns the
initial record unchanged — every field empty except the name, which holds
the `"(unknown)"` placeholder — and returns it normally (the timeout is
only logged), so the crawl continues. -/
theorem scrape_profile_timeout_initResult (doc : Doc) (ia : Bool)
    (h : doc.timedOut = true) :
    scrape_profile doc ia = initResult ∧
    initResult.name = "(unknown)".data ∧
    initResult.email = [] ∧ initResult.linkedin = [] ∧ initResult.city = [] ∧
    initResult.state = [] ∧ initResult.industry = [] ∧
    initResult.work_title = [] ∧ initResult.firm_name = [] ∧
    initResult.class_year = [] := by
  refine ⟨?_, rfl, rfl, rfl, rfl, rfl, rfl, rfl, rfl, rfl⟩
  simp [scrape_profile, h]

/-- Witness for `scrape_profile_timeout_initResult` at a concrete document. -/
theorem scrape_profile_timeout_initResult_witness :
    scrape_profile docTimeout true = initResult := by
  exact (scrape_profile_timeout_initResult docTimeout true rfl).1

/- ## C5: the crawl ignores the start/end page bounds -/

/-- C5 (code bug): with `--start-page 5 --end-page 7` and a ten-page
directory, the crawl processes listing pages 1 through 10 — it starts at
page 1 (below the start bound) and advances past the end bound, because
`scrape_directory` navigates to `build_url(page=1)`, runs its own
`page = 1; page += 1` counter, and never consults `START_PAGE` or
`END_PAGE` (the bound-honouring generator `iter_pages` is dead code). -/
theorem crawl_ignores_page_bounds :
    scrape_directory_pages 5 (some 7) 100 tenPageSite =
      [1, 2, 3, 4, 5, 6, 7, 8, 9, 10] ∧
    1 ∈ scrape_directory_pages 5 (some 7) 100 tenPageSite ∧
    10 ∈ scrape_directory_pages 5 (some 7) 100 tenPageSite := by decide

/- ## C1: duplicate-key inserts are no-ops -/

theorem countP_url_eq_one (key : List Char) :
    ∀ rows : List AlumniRow,
      (rows.map (fun x => x.profile_url)).Nodup →
      (∃ x ∈ rows, x.profile_url = key) →
      rows.countP (fun x => x.profile_url == key) = 1
  | [], _, hex => by simp at hex
  | r :: rs, hnd, hex => by
    rw [List.map_cons, List.nodup_cons] at hnd
    by_cases hr : r.profile_url = key
    · have hzero : rs.countP (fun x => x.profile_url == key) = 0 := by
        rw [List.countP_eq_zero]
        intro y hy
        have : y.profile_url ≠ r.profile_url := by
          intro he
          exact hnd.1 (he ▸ List.mem_map_of_mem (fun x => x.profile_url) hy)
        simp [hr ▸ this]
      rw [List.countP_cons, hzero]
      simp [hr]
    · have hex2 : ∃ x ∈ rs, x.profile_url = key := by
        rcases hex with ⟨x, hx, hxk⟩
        rcases List.mem_cons.mp hx with h | h
        · exact absurd (h ▸ hxk) hr
        · exact ⟨x, h, hxk⟩
      rw [List.countP_cons, countP_url_eq_one key rs hnd.2 hex2]
      simp [hr]

/-- C1: inserting a row whose `profile_url` is already present stores
nothing, overwrites nothing and returns `false`; and after two inserts of
the same key into a store with unique keys, exactly one row with that key
is stored, the second insert reports `false`, and `get_total_count` has
grown by at most one. -/
theorem write_row_duplicate_noop (w : SQLiteWriter) (r r2 : AlumniRow)
    (hkeys : (w.rows.map (fun x => x.profile_url)).Nodup)
    (hsame : r2.profile_url = r.profile_url) :
    (w.rows.any (fun x => x.profile_url == r.profile_url) = true →
      write_row w r = (w, false)) ∧
    (write_row (write_row w r).1 r2).2 = false ∧
    ((write_row (write_row w r).1 r2).1.rows.countP
      (fun x => x.profile_url == r.profile_url)) = 1 ∧
    get_total_count (write_row (write_row w r).1 r2).1 ≤ get_total_count w + 1 := by
  by_cases hdup : w.rows.any (fun x => x.profile_url == r.profile_url) = true
  · have hw1 : write_row w r = (w, false) := by simp [write_row, hdup]
    have hex : ∃ x ∈ w.rows, x.profile_url = r.profile_url := by
      rcases List.any_eq_true.mp hdup with ⟨x, hx, hxe⟩
      exact ⟨x, hx, by simpa using hxe⟩
    have hw2 : write_row w r2 = (w, false) := by
      have : w.rows.any (fun x => x.profile_url == r2.profile_url) = true := by
        rw [hsame]; exact hdup
      simp [write_row, this]
    refine ⟨fun _ => hw1, ?_, ?_, ?_⟩
    · rw [hw1]; simpa using congrArg Prod.snd hw2
    · rw [hw1]
      simp only [hw2]
      exact countP_url_eq_one r.profile_url w.rows hkeys hex
    · rw [hw1]
      simp only [hw2]
      exact Nat.le_succ _
  · have hw1 : write_row w r =
        ({ w with rows := w.rows ++ [r], row_count := w.row_count + 1 }, true) := by
      simp only [write_row]
      rw [if_neg hdup]
    have hzero : w.rows.countP (fun x => x.profile_url == r.profile_url) = 0 := by
      rw [List.countP_eq_zero]
      intro y hy hye
      exact hdup (List.any_eq_true.mpr ⟨y, hy, hye⟩)
    have hdup2 : ((w.rows ++ [r]).any
        (fun x => x.profile_url == r2.profile_url)) = true := by
      rw [hsame]
      exact List.any_eq_true.mpr ⟨r, by simp, by simp⟩
    have hw2 : write_row { w with rows := w.rows ++ [r], row_count := w.row_count + 1 } r2 =
        ({ w with rows := w.rows ++ [r], row_count := w.row_count + 1 }, false) := by
      simp only [write_row]
      rw [if_pos hdup2]
    refine ⟨fun h => absurd h hdup, ?_, ?_, ?_⟩
    · rw [hw1]
      simpa using congrArg Prod.snd hw2
    · rw [hw1]
      simp only [hw2]
      simp [List.countP_append, hzero]
    · rw [hw1]
      simp only [hw2]
      simp [get_total_count]

/-- Witness for `write_row_duplicate_noop`: two inserts with the same
identity key into an empty store leave exactly one matching row. -/
theorem write_row_duplicate_noop_witness :
    (write_row (write_row emptyWriter rowA).1 rowA2).2 = false ∧
    ((write_row (write_row emptyWriter rowA).1 rowA2).1.rows.countP
      (fun x => x.profile_url == rowA.profile_url)) = 1 ∧
    get_total_count (write_row (write_row emptyWriter rowA).1 rowA2).1 ≤
      get_total_count emptyWriter + 1 := by
  have h := write_row_duplicate_noop emptyWriter rowA rowA2 (by decide) rfl
  exact ⟨h.2.1, h.2.2.1, h.2.2.2⟩

/- ## C8: two-digit class-year suffix pivot -/

theorem scanElems_ne_nil (ts : List (List Char)) :
    ∀ cands : List (List Char), (∀ x ∈ cands, x ≠ []) →
      ∀ x ∈ scanElems cands ts, x ≠ [] := by
  induction ts with
  | nil => intro cands h x hx; exact h x hx
  | cons t ts ih =>
    intro cands h x hx
    simp only [scanElems] at hx
    split at hx
    · rename_i hcond
      rcases List.mem_append.mp hx with h1 | h1
      · exact h x h1
      · simp at h1
        exact h1 ▸ hcond.1
    · exact ih cands h x hx

theorem scanSelectors_ne_nil (sels : List (List (List Char))) :
    ∀ cands : List (List Char), (∀ x ∈ cands, x ≠ []) →
      ∀ x ∈ scanSelectors cands sels, x ≠ [] := by
  induction sels with
  | nil => intro cands h x hx; exact h x hx
  | cons elems rest ih =>
    intro cands h x hx
    simp only [scanSelectors] at hx
    split at hx
    · exact scanElems_ne_nil elems cands h x hx
    · exact ih _ (scanElems_ne_nil elems cands h) x hx

theorem extract_name_ne_nil (doc : Doc) : extract_name doc ≠ [] := by
  unfold extract_name
  cases hh : (name_candidates doc).head? with
  | none => decide
  | some n =>
    have hn : n ∈ name_candidates doc := List.mem_of_mem_head? (hh ▸ rfl)
    simp only [name_candidates] at hn
    split at hn
    · split at hn
      · rename_i t hft
        split at hn
        · rename_i hcond
          simp at hn
          exact hn ▸ hcond.1
        · simp at hn
      · simp at hn
    · exact scanSelectors_ne_nil doc.selectorTexts [] (by simp) n hn

/-- C8: when methods 1-3 of the class-year chain produce nothing and the
extracted name carries a two-digit year suffix of value `v`, the stored
class year is the pivot-50 expansion: `1900 + v` for `v ≥ 50` and
`2000 + v` for `v < 50`. -/
theorem class_year_suffix_pivot (doc : Doc) (ia : Bool) (v : Nat)
    (ht : doc.timedOut = false)
    (h123 : class_year_123 doc = [])
    (hsuf : findYearSuffix (extract_name doc) = some v) :
    (scrape_profile doc ia).class_year =
      if 50 ≤ v then natToStr (1900 + v) else natToStr (2000 + v) := by
  have hn := extract_name_ne_nil doc
  simp only [scrape_profile, ht, Bool.false_eq_true, if_false, class_year_of, h123]
  rw [if_pos ⟨trivial, hn⟩, hsuf]

/-- Witness for `class_year_suffix_pivot`: a name ending in the suffix
`(apostrophe)97` yields class year `"1997"`, and `(apostrophe)04` yields
`"2004"`. -/
theorem class_year_suffix_pivot_witness :
    (scrape_profile doc97 true).class_year = "1997".data ∧
    (scrape_profile doc04 true).class_year = "2004".data := by
  constructor
  · have h := class_year_suffix_pivot doc97 true 97 rfl (by decide) (by decide)
    rw [if_pos (by norm_num)] at h
    exact h.trans (by decide)
  · have h := class_year_suffix_pivot doc04 true 4 rfl (by decide) (by decide)
    rw [if_neg (by norm_num)] at h
    exact h.trans (by decide)

/- ## C9: LinkedIn extraction order and trailing slash -/

theorem head_dropWhile_not (p : Char → Bool) :
    ∀ l : List Char, ∀ a : Char, (l.dropWhile p).head? = some a → p a = false := by
  intro l
  induction l with
  | nil => intro a h; simp [List.dropWhile] at h
  | cons b bs ih =>
    intro a h
    by_cases hb : p b
    · rw [List.dropWhile_cons_of_pos hb] at h
      exact ih a h
    · rw [List.dropWhile_cons_of_neg hb] at h
      simp at h
      subst h
      simpa using hb

theorem pyRstripChar_getLast_ne (strip : Char) (s : List Char) :
    (pyRstripChar strip s).getLast? ≠ some strip := by
  unfold pyRstripChar
  rw [List.getLast?_reverse]
  intro h
  have := head_dropWhile_not (· == strip) s.reverse strip h
  simp at this

/-- C9 corrected-part counterexample: a document whose page source yields
no regex match but whose DOM exposes a `linkedin.com/in/` anchor with a
trailing slash makes `scrape_profile` return a link ending in `/` — the
element-lookup fallback only strips whitespace, not the trailing slash. -/
theorem linkedin_fallback_keeps_slash :
    (scrape_profile docSlash true).linkedin =
      "https://www.linkedin.com/in/jane-doe/".data ∧
    ((scrape_profile docSlash true).linkedin).getLast? = some '/' := by decide

/-- C9 amended: the LinkedIn chain tries the regex against the raw page
source first and falls back to the direct element lookup only when the
regex yields nothing; the regex path never returns a value ending in a
trailing slash (it is stripped by `rstrip('/')`), while the fallback path
returns the whitespace-stripped `href` as is. -/
theorem linkedin_regex_first (doc : Doc) (ia : Bool)
    (ht : doc.timedOut = false) :
    (extract_linkedin doc.pageSource ≠ [] →
      (scrape_profile doc ia).linkedin = extract_linkedin doc.pageSource) ∧
    (extract_linkedin doc.pageSource = [] →
      (scrape_profile doc ia).linkedin =
        (match doc.linkedinHrefs.head? with
         | some h => pyStrip h
         | none => [])) ∧
    (∀ s : List Char, (extract_linkedin s).getLast? ≠ some '/') := by
  refine ⟨?_, ?_, ?_⟩
  · intro hne
    simp only [scrape_profile, ht, Bool.false_eq_true, if_false, linkedin_of]
    rw [if_neg hne]
  · intro heq
    simp only [scrape_profile, ht, Bool.false_eq_true, if_false, linkedin_of, heq]
    simp
  · intro s
    unfold extract_linkedin
    cases reSearch LINKEDIN_PATTERN s with
    | none => simp
    | some mp => exact pyRstripChar_getLast_ne '/' mp.1

/-- Witness for `linkedin_regex_first`: a page source carrying a canonical
LinkedIn URL with trailing slash produces the stripped link. -/
theorem linkedin_regex_first_witness :
    (scrape_profile docLinked true).linkedin =
      "https://www.linkedin.com/in/jane-doe".data := by
  have h := (linkedin_regex_first docLinked true rfl).1 (by decide)
  exact h.trans (by decide)

/- ## C3: shape of the regex-extracted emails -/

theorem mem_pyReplaceAux (pat rep : List Char) :
    ∀ (fuel : Nat) (s : List Char) (c : Char),
      c ∈ pyReplaceAux pat rep fuel s → c ∈ s ∨ c ∈ rep := by
  intro fuel
  induction fuel with
  | zero => intro s c h; exact Or.inl h
  | succ n ih =>
    intro s c h
    match s with
    | [] => simp [pyReplaceAux] at h
    | d :: ds =>
      simp only [pyReplaceAux] at h
      split at h
      · rcases List.mem_append.mp h with h1 | h1
        · exact Or.inr h1
        · rcases ih _ c h1 with h2 | h2
          · exact Or.inl (List.drop_subset _ _ h2)
          · exact Or.inr h2
      · rcases List.mem_cons.mp h with h1 | h1
        · exact Or.inl (h1 ▸ List.mem_cons_self d ds)
        · rcases ih ds c h1 with h2 | h2
          · exact Or.inl (List.mem_cons_of_mem d h2)
          · exact Or.inr h2

theorem mem_pyReplace (s pat rep : List Char) (c : Char)
    (h : c ∈ pyReplace s pat rep) : c ∈ s ∨ c ∈ rep :=
  mem_pyReplaceAux pat rep s.length s c h

theorem clean_match_not_upper (m : List Char) :
    ∀ c ∈ clean_match m, c.toNat < 65 ∨ 90 < c.toNat := by
  intro c hc
  unfold clean_match at hc
  rcases mem_pyReplace _ _ _ c hc with hc | hc
  swap
  · simp at hc; subst hc; decide
  rcases mem_pyReplace _ _ _ c hc with hc | hc
  swap
  · simp at hc; subst hc; decide
  rcases mem_pyReplace _ _ _ c hc with hc | hc
  swap
  · simp at hc; subst hc; decide
  rcases mem_pyReplace _ _ _ c hc with hc | hc
  swap
  · simp at hc; subst hc; decide
  rcases List.mem_map.mp hc with ⟨x, _, hx⟩
  exact hx ▸ pyLowerChar_not_upper x

theorem acceptMatch_good (acc : List (List Char)) (m : List Char)
    (h : ∀ x ∈ acc, '@' ∈ x ∧ '.' ∈ afterFirst '@' x ∧
      ∀ c ∈ x, c.toNat < 65 ∨ 90 < c.toNat) :
    ∀ x ∈ acceptMatch acc m, '@' ∈ x ∧ '.' ∈ afterFirst '@' x ∧
      ∀ c ∈ x, c.toNat < 65 ∨ 90 < c.toNat := by
  intro x hx
  simp only [acceptMatch] at hx
  split at hx
  · rename_i hcond
    rcases List.mem_append.mp hx with h1 | h1
    · exact h x h1
    · simp at h1
      subst h1
      refine ⟨hcond.1, ?_, clean_match_not_upper m⟩
      have hd := hcond.2.1
      unfold domain_part at hd
      rwa [if_pos hcond.1] at hd
  · exact h x hx

theorem foldl_acceptMatch_good (ms : List (List Char)) :
    ∀ acc : List (List Char),
      (∀ x ∈ acc, '@' ∈ x ∧ '.' ∈ afterFirst '@' x ∧
        ∀ c ∈ x, c.toNat < 65 ∨ 90 < c.toNat) →
      ∀ x ∈ ms.foldl acceptMatch acc, '@' ∈ x ∧ '.' ∈ afterFirst '@' x ∧
        ∀ c ∈ x, c.toNat < 65 ∨ 90 < c.toNat := by
  induction ms with
  | nil => intro acc h; exact h
  | cons m ms ih =>
    intro acc h
    exact ih (acceptMatch acc m) (acceptMatch_good acc m h)

theorem foldl_patterns_good (pats : List RE) (text : List Char) :
    ∀ acc : List (List Char),
      (∀ x ∈ acc, '@' ∈ x ∧ '.' ∈ afterFirst '@' x ∧
        ∀ c ∈ x, c.toNat < 65 ∨ 90 < c.toNat) →
      ∀ x ∈ pats.foldl (fun found pat => (reFindall pat text).foldl acceptMatch found) acc,
        '@' ∈ x ∧ '.' ∈ afterFirst '@' x ∧ ∀ c ∈ x, c.toNat < 65 ∨ 90 < c.toNat := by
  induction pats with
  | nil => intro acc h; exact h
  | cons p ps ih =>
    intro acc h
    exact ih _ (foldl_acceptMatch_good (reFindall p text) acc h)

/-- C3 counterexample: on the input `a@@b.cc`, pattern 2 (whose separator
class `[\s@]+` may absorb several `@` characters) produces the candidate
`a@@b.cc`, and the acceptance filter — which only requires some `@` and a
`.` after the first `@` — admits it, so the extractor emits an address
with two `@` characters, contradicting the "exactly one `@`" claim. -/
theorem regex_accepts_double_at :
    "a@@b.cc".data ∈ extract_emails_by_regex "a@@b.cc".data ∧
    ("a@@b.cc".data).count '@' = 2 := by decide

/-- C3 amended: every address the regex-fallback extractor accepts contains
at least one `@` (possibly more than one), at least one `.` after the
first `@`, and no uppercase ASCII letter; candidates failing the `@` or
`.`-after-`@` tests are rejected. -/
theorem extract_emails_by_regex_shape (text e : List Char)
    (he : e ∈ extract_emails_by_regex text) :
    '@' ∈ e ∧ '.' ∈ afterFirst '@' e ∧
      ∀ c ∈ e, c.toNat < 65 ∨ 90 < c.toNat := by
  unfold extract_emails_by_regex at he
  exact foldl_patterns_good EMAIL_PATTERNS text [] (by simp) e he

/-- Witness for `extract_emails_by_regex_shape` at a concrete input. -/
theorem extract_emails_by_regex_shape_witness :
    '@' ∈ "a@b.cc".data ∧ '.' ∈ afterFirst '@' "a@b.cc".data ∧
      ∀ c ∈ "a@b.cc".data, c.toNat < 65 ∨ 90 < c.toNat :=
  extract_emails_by_regex_shape "a@b.cc".data "a@b.cc".data (by decide)

/- ## C10: shape of the mailto-anchor extraction -/

theorem addEmail_eq_clean (o : List (List Char)) (h : List Char) :
    addEmail o h =
      if clean_href h ≠ [] ∧ clean_href h ∉ o then o ++ [clean_href h] else o := rfl

theorem dedup_first_seen_congr :
    ∀ (es : List (List Char)) (s1 s2 : List (List Char)),
      (∀ x, x ∈ s1 ↔ x ∈ s2) →
      dedup_first_seen s1 es = dedup_first_seen s2 es := by
  intro es
  induction es with
  | nil => intro s1 s2 _; rfl
  | cons e es ih =>
    intro s1 s2 hs
    simp only [dedup_first_seen]
    by_cases he : e ∈ s1
    · rw [if_pos he, if_pos ((hs e).mp he)]
      exact ih s1 s2 hs
    · rw [if_neg he, if_neg (fun h2 => he ((hs e).mpr h2))]
      refine congrArg (e :: ·) (ih (e :: s1) (e :: s2) ?_)
      intro x
      simp [hs x]

theorem mem_dedup_first_seen :
    ∀ (es seen : List (List Char)) (x : List Char),
      x ∈ dedup_first_seen seen es → x ∈ es ∧ x ∉ seen := by
  intro es
  induction es with
  | nil => intro seen x hx; simp [dedup_first_seen] at hx
  | cons e es ih =>
    intro seen x hx
    simp only [dedup_first_seen] at hx
    by_cases he : e ∈ seen
    · rw [if_pos he] at hx
      have := ih seen x hx
      exact ⟨List.mem_cons_of_mem e this.1, this.2⟩
    · rw [if_neg he] at hx
      rcases List.mem_cons.mp hx with h1 | h1
      · exact ⟨h1 ▸ List.mem_cons_self e es, h1 ▸ he⟩
      · have := ih (e :: seen) x h1
        exact ⟨List.mem_cons_of_mem e this.1,
          fun hs => this.2 (List.mem_cons_of_mem e hs)⟩

theorem dedup_first_seen_nodup :
    ∀ (es seen : List (List Char)), (dedup_first_seen seen es).Nodup := by
  intro es
  induction es with
  | nil => intro seen; simp [dedup_first_seen]
  | cons e es ih =>
    intro seen
    simp only [dedup_first_seen]
    by_cases he : e ∈ seen
    · rw [if_pos he]; exact ih seen
    · rw [if_neg he]
      refine List.nodup_cons.mpr ⟨?_, ih (e :: seen)⟩
      intro hmem
      exact (mem_dedup_first_seen es (e :: seen) e hmem).2 (List.mem_cons_self e seen)

theorem foldl_addEmail_eq (hrefs : List (List Char)) :
    ∀ acc : List (List Char),
      hrefs.foldl addEmail acc =
        acc ++ dedup_first_seen acc
          ((hrefs.map clean_href).filter (fun e => !e.isEmpty)) := by
  induction hrefs with
  | nil => intro acc; simp [dedup_first_seen]
  | cons h hs ih =>
    intro acc
    rw [List.foldl_cons, addEmail_eq_clean, List.map_cons]
    by_cases h0 : clean_href h = []
    · rw [if_neg (fun hc => hc.1 h0)]
      rw [List.filter_cons_of_neg (by simp [h0])]
      exact ih acc
    · by_cases hacc : clean_href h ∈ acc
      · rw [if_neg (fun hc => hc.2 hacc)]
        rw [List.filter_cons_of_pos (by simp [h0])]
        simp only [dedup_first_seen]
        rw [if_pos hacc]
        exact ih acc
      · rw [if_pos ⟨h0, hacc⟩]
        rw [List.filter_cons_of_pos (by simp [h0])]
        simp only [dedup_first_seen]
        rw [if_neg hacc, ih (acc ++ [clean_href h])]
        rw [dedup_first_seen_congr _ (acc ++ [clean_href h]) (clean_href h :: acc)
          (by intro x; simp; tauto)]
        simp

theorem extract_emails_from_blocks_eq (blocks : List (List (List Char))) :
    extract_emails_from_blocks blocks =
      dedup_first_seen []
        ((blocks.flatten.map clean_href).filter (fun e => !e.isEmpty)) := by
  unfold extract_emails_from_blocks
  rw [← List.foldl_flatten addEmail [] blocks]
  simpa using foldl_addEmail_eq blocks.flatten []

/-- C10 counterexample: the code removes every occurrence of `mailto:`
(`href.replace("mailto:", "")`), not only the leading prefix: on the
anchor `mailto:mailto:a@b.com` the returned address is `a@b.com`, while
the prefix-removal the claim describes would return `mailto:a@b.com`. -/
theorem mailto_all_occurrences_removed :
    extract_emails_from_blocks [["mailto:mailto:a@b.com".data]] = ["a@b.com".data] ∧
    spec_clean_href "mailto:mailto:a@b.com".data = "mailto:a@b.com".data ∧
    ("a@b.com".data : List Char) ≠ "mailto:a@b.com".data := by decide

/-- C10 amended: the mailto-anchor extractor returns each address with
every occurrence of `mailto:` removed (in particular the prefix), the
query suffix from the first `?` dropped, whitespace stripped and the
result lower-cased (`clean_href`); the output keeps the first occurrence
of each distinct cleaned address in first-seen order
(`dedup_first_seen`), contains no duplicates, no empty strings, and every
element is the cleaning of some input anchor href. -/
theorem extract_emails_from_blocks_shape (blocks : List (List (List Char))) :
    extract_emails_from_blocks blocks =
      dedup_first_seen []
        ((blocks.flatten.map clean_href).filter (fun e => !e.isEmpty)) ∧
    (extract_emails_from_blocks blocks).Nodup ∧
    [] ∉ extract_emails_from_blocks blocks ∧
    ∀ e ∈ extract_emails_from_blocks blocks,
      e ≠ [] ∧ ∃ href ∈ blocks.flatten, e = clean_href href := by
  have heq := extract_emails_from_blocks_eq blocks
  refine ⟨heq, ?_, ?_, ?_⟩
  · rw [heq]; exact dedup_first_seen_nodup _ []
  · rw [heq]
    intro hmem
    have := (mem_dedup_first_seen _ [] [] hmem).1
    have := List.of_mem_filter this
    simp at this
  · intro e he
    rw [heq] at he
    have hf := (mem_dedup_first_seen _ [] e he).1
    have hm := List.mem_of_mem_filter hf
    have hne := List.of_mem_filter hf
    rcases List.mem_map.mp hm with ⟨href, hh, hch⟩
    refine ⟨?_, href, hh, hch.symm⟩
    simpa using hne

/-- Witness for `extract_emails_from_blocks_shape` at a concrete block list. -/
theorem extract_emails_from_blocks_shape_witness :
    (extract_emails_from_blocks [["mailto:Bob@X.org?subject=hi".data]]).Nodup ∧
    [] ∉ extract_emails_from_blocks [["mailto:Bob@X.org?subject=hi".data]] := by
  have h := extract_emails_from_blocks_shape [["mailto:Bob@X.org?subject=hi".data]]
  exact ⟨h.2.1, h.2.2.1⟩
